import Mathlib

/-!
Verification of the keroxio-image processing service.

The Python sources are shallowly embedded: byte strings become `List Nat`,
filenames become `List Char`, JSON-ish option dictionaries become
association lists, HTTP outcomes become `Except` values, and the PIL image
operations that the repository only calls (never implements) are abstracted
as parameters or modelled from the spec where noted.  Every definition
mirrors the control flow of the function it is named after.
-/

namespace KeroxioImage

/-! ## Magic-byte validation (`app/routers/images.py`) -/

/-- The JPEG signature `b'\xff\xd8\xff'` from `IMAGE_SIGNATURES`. -/
def jpegSig : List Nat := [0xff, 0xd8, 0xff]

/-- The PNG signature `b'\x89PNG\r\n\x1a\n'` from `IMAGE_SIGNATURES`. -/
def pngSig : List Nat := [0x89, 0x50, 0x4e, 0x47, 0x0d, 0x0a, 0x1a, 0x0a]

/-- The RIFF signature `b'RIFF'` from `IMAGE_SIGNATURES` (mapped to `'webp'`). -/
def riffSig : List Nat := [0x52, 0x49, 0x46, 0x46]

/-- The bytes `b'WEBP'` looked for at offset 8 of a RIFF container. -/
def webpTag : List Nat := [0x57, 0x45, 0x42, 0x50]

/-- Python `bytes.startswith`. -/
def startswith (sig content : List Nat) : Bool :=
  sig.isPrefixOf content

/-- `validate_image_content` from `app/routers/images.py`, flattening the
ordered loop over `IMAGE_SIGNATURES`: each iteration first tests
`content.startswith(signature)` and returns the mapped extension, and the
iteration for `b'RIFF'` additionally tests `content[8:12] == b'WEBP'` when
`len(content) > 12` (that second test is reached only when the
`startswith(b'RIFF')` test already failed, because `startswith` returns). -/
def validate_image_content (content : List Nat) : Option String :=
  if startswith jpegSig content then some "jpeg"
  else if startswith pngSig content then some "png"
  else if startswith riffSig content then some "webp"
  else if 12 < content.length ∧ (content.drop 8).take 4 = webpTag then some "webp"
  else none

/-- Python `str.split(".")` over the characters of a filename: split at every
`'.'`; a string without a dot yields a single part; the empty string yields
one empty part. -/
def splitDotAux : List Char → List Char → List (List Char)
  | [], acc => [acc.reverse]
  | c :: rest, acc =>
    if c = '.' then acc.reverse :: splitDotAux rest []
    else splitDotAux rest (c :: acc)

/-- `filename.split(".")`. -/
def splitDot (s : List Char) : List (List Char) :=
  splitDotAux s []

/-- ASCII lowercasing of one character; models Python `str.lower()` on the
ASCII extensions the endpoint compares against. -/
def lowerChar (c : Char) : Char :=
  if 'A' ≤ c ∧ c ≤ 'Z' then Char.ofNat (c.toNat + 32) else c

/-- `file.filename.split(".")[-1].lower()`. -/
def filenameExtension (filename : List Char) : List Char :=
  ((splitDot filename).getLastD []).map lowerChar

/-- The endpoint's extension allow-list `["jpg", "jpeg", "png", "webp"]`. -/
def allowedExtensions : List (List Char) :=
  ["jpg".data, "jpeg".data, "png".data, "webp".data]

/-- Outcome of the upload endpoint: an `HTTPException` detail or acceptance
with the stored extension and size. -/
inductive UploadOutcome where
  | rejected (detail : String)
  | accepted (storedExt : String) (size : Nat)
deriving DecidableEq, Repr

/-- The stored extension derived from the detected type:
`"jpg" if detected_type == "jpeg" else detected_type`. -/
def actualExtension (detected : String) : String :=
  if detected = "jpeg" then "jpg" else detected

/-- `upload_image` from `app/routers/images.py`, restricted to its pure
validation logic: missing-filename check, extension allow-list, 10 MiB size
cap, magic-byte validation, and the stored extension derived from the
detected type. -/
def upload_image (filename : List Char) (content : List Nat) : UploadOutcome :=
  if filename = [] then .rejected "Filename is required"
  else if ¬ (filenameExtension filename ∈ allowedExtensions) then
    .rejected "Invalid file type. Allowed: jpg, jpeg, png, webp"
  else if 10 * 1024 * 1024 < content.length then
    .rejected "File too large. Max size: 10MB"
  else
    match validate_image_content content with
    | none => .rejected "Invalid image content. File does not match a valid image format."
    | some detected => .accepted (actualExtension detected) content.length

/-! ## Remote backend response handling (`app/services/autobg_service.py`) -/

/-- An `httpx.HTTPError`: either a transport failure of the POST itself or
the `HTTPStatusError` raised by `raise_for_status()` on a non-2xx reply. -/
inductive HttpFailure where
  | transport
  | statusError (code : Nat)
deriving DecidableEq, Repr

/-- The decoded JSON body of a successful reply: `imageField` holds the
base64-decoded bytes of an `image` field when present, `urlField` the `url`
field when present. -/
structure ApiResponse where
  imageField : Option (List Nat)
  urlField : Option String
deriving DecidableEq, Repr

/-- A Python exception live inside the `try` block of
`AutoBGService.remove_background`: an `httpx.HTTPError` or the
`ValueError("No image in API response")`. -/
inductive PyExc where
  | httpError (e : HttpFailure)
  | valueError (msg : String)
deriving DecidableEq, Repr

/-- The `try` block of `AutoBGService.remove_background`: POST plus
`raise_for_status()` (both folded into `post`), then `image`/`url` handling;
a missing `url` fetch failure is an `httpx.HTTPError`, a body with neither
field raises `ValueError`. -/
def autobg_try_block (post : Except HttpFailure ApiResponse)
    (fetch : String → Except HttpFailure (List Nat)) : Except PyExc (List Nat) :=
  match post with
  | .error e => .error (.httpError e)
  | .ok resp =>
    match resp.imageField with
    | some b => .ok b
    | none =>
      match resp.urlField with
      | some u =>
        match fetch u with
        | .ok b => .ok b
        | .error e => .error (.httpError e)
      | none => .error (.valueError "No image in API response")

/-- `AutoBGService.remove_background`'s response handling: the `try` block
guarded by `except httpx.HTTPError`, which substitutes the original
downloaded bytes; any other exception propagates to the caller. -/
def autobg_handle_response (image_bytes : List Nat)
    (post : Except HttpFailure ApiResponse)
    (fetch : String → Except HttpFailure (List Nat)) : Except String (List Nat) :=
  match autobg_try_block post fetch with
  | .ok b => .ok b
  | .error (PyExc.httpError _) => .ok image_bytes
  | .error (PyExc.valueError msg) => .error msg

/-! ## Batch job runner (`batch_process` in `app/services/rembg_service.py`,
identical in `autobg_service.py` and `birefnet_service.py`) -/

/-- One per-image entry of the batch result dictionary. -/
structure ImageResult where
  image_url : String
  status : String
  processed_url : Option String
  error : Option String
deriving DecidableEq, Repr

/-- The dictionary returned by `batch_process`. -/
structure BatchOutcome where
  job_id : String
  status : String
  results : List ImageResult
deriving DecidableEq, Repr

/-- The inner `for op in operations` loop of `batch_process`.  The oracle
`runOp` models awaiting `self.enhance_image(url)`,
`self.remove_background(url)` or `self.virtual_showroom(url)` — note every
call receives the original `url` — returning the processed URL or raising
(`Except.error` carries `str(e)`).  A recognized operation overwrites
`result["processed_url"]`; an unrecognized one is skipped. -/
def run_operations (runOp : String → String → Except String String) (url : String) :
    List String → Option String → Except String (Option String)
  | [], acc => Except.ok acc
  | op :: rest, acc =>
    if op = "enhance" ∨ op = "remove_background" ∨ op = "showroom" then
      match runOp op url with
      | Except.ok processed => run_operations runOp url rest (some processed)
      | Except.error e => Except.error e
    else
      run_operations runOp url rest acc

/-- The `try`/`except` body around one image of `batch_process`: success
appends a `completed` entry, any exception appends a `failed` entry with the
message. -/
def process_one (runOp : String → String → Except String String)
    (operations : List String) (url : String) : ImageResult :=
  match run_operations runOp url operations none with
  | Except.ok processed => ⟨url, "completed", processed, none⟩
  | Except.error e => ⟨url, "failed", none, some e⟩

/-- The outer `for url in image_urls` loop of `batch_process`. -/
def batch_loop (runOp : String → String → Except String String)
    (operations : List String) : List String → List ImageResult
  | [] => []
  | url :: rest => process_one runOp operations url :: batch_loop runOp operations rest

/-- `batch_process`: runs every image and always returns overall status
`"completed"`.  `user_id` is accepted and unused, as in the source. -/
def batch_process (runOp : String → String → Except String String)
    (job_id : String) (image_urls operations : List String)
    (user_id : String) : BatchOutcome :=
  ⟨job_id, "completed", batch_loop runOp operations image_urls⟩

/-! ## Background selection and output encoding
(`remove_background` / `virtual_showroom` in `app/services/rembg_service.py`
and `app/services/birefnet_service.py`) -/

/-- Python truthiness of an optional string argument
(`None` and `""` are falsy). -/
def pyTruthy (s : Option String) : Bool :=
  s.getD "" ≠ ""

/-- `self._backgrounds` of `RembgService`. -/
def rembg_backgrounds : List (String × String) :=
  [("white", "#FFFFFF"), ("gray", "#808080"), ("dark", "#1f2937"), ("showroom", "#2d3748")]

/-- `self._backgrounds` of `BiRefNetService` (textually identical table). -/
def birefnet_backgrounds : List (String × String) :=
  [("white", "#FFFFFF"), ("gray", "#808080"), ("dark", "#1f2937"), ("showroom", "#2d3748")]

/-- `showroom_backgrounds` of `RembgService.virtual_showroom`. -/
def rembg_showroom_backgrounds : List (String × String) :=
  [("indoor", "#1a1a2e"), ("outdoor", "#87CEEB"), ("studio", "#2d3748"),
   ("dark", "#0f0f0f"), ("white", "#f8f9fa")]

/-- Which backdrop the `if`/`elif` chain of `remove_background` composites
(or none at all, leaving the RGBA cutout untouched). -/
inductive AppliedBackground where
  | noComposite
  | solidColor (hex : String)
  | customImage (url : String)
deriving DecidableEq, Repr

/-- The `if`/`elif` chain of `RembgService.remove_background`:
`solid` with a truthy color, `custom` with a truthy URL, then membership in
`self._backgrounds`; anything else composites nothing. -/
def rembgSelectBackground (background_type : String)
    (background_color background_url : Option String) : AppliedBackground :=
  if background_type = "solid" ∧ pyTruthy background_color then
    AppliedBackground.solidColor (background_color.getD "")
  else if background_type = "custom" ∧ pyTruthy background_url then
    AppliedBackground.customImage (background_url.getD "")
  else
    match List.lookup background_type rembg_backgrounds with
    | some hex => AppliedBackground.solidColor hex
    | none => AppliedBackground.noComposite

/-- The identical `if`/`elif` chain of `BiRefNetService.remove_background`. -/
def birefnetSelectBackground (background_type : String)
    (background_color background_url : Option String) : AppliedBackground :=
  if background_type = "solid" ∧ pyTruthy background_color then
    AppliedBackground.solidColor (background_color.getD "")
  else if background_type = "custom" ∧ pyTruthy background_url then
    AppliedBackground.customImage (background_url.getD "")
  else
    match List.lookup background_type birefnet_backgrounds with
    | some hex => AppliedBackground.solidColor hex
    | none => AppliedBackground.noComposite

/-- Channel layout of the saved image. -/
inductive Mode where
  | RGBA
  | RGB
deriving DecidableEq, Repr

/-- What `result_image.save(...)` receives: format, JPEG quality if any,
channel layout, and the storage extension. -/
structure SaveResult where
  format : String
  quality : Option Nat
  mode : Mode
  ext : String
deriving DecidableEq, Repr

/-- The save step of `RembgService.remove_background`: the cutout opens as
RGBA, every composite branch ends in `.convert("RGB")`, then
`transparent` saves PNG while every other type saves
`result_image.convert("RGB")` as JPEG `quality=90`. -/
def rembgEncodeOutput (background_type : String)
    (background_color background_url : Option String) : SaveResult :=
  let mode := match rembgSelectBackground background_type background_color background_url with
    | AppliedBackground.noComposite => Mode.RGBA
    | _ => Mode.RGB
  if background_type = "transparent" then
    ⟨"PNG", none, mode, "png"⟩
  else
    ⟨"JPEG", some 90, Mode.RGB, "jpg"⟩

/-- The save step of `BiRefNetService.remove_background`, identical except
for JPEG `quality=92`. -/
def birefnetEncodeOutput (background_type : String)
    (background_color background_url : Option String) : SaveResult :=
  let mode := match birefnetSelectBackground background_type background_color background_url with
    | AppliedBackground.noComposite => Mode.RGBA
    | _ => Mode.RGB
  if background_type = "transparent" then
    ⟨"PNG", none, mode, "png"⟩
  else
    ⟨"JPEG", some 92, Mode.RGB, "jpg"⟩

/-- `showroom_backgrounds.get(showroom_type, "#2d3748")` in
`RembgService.virtual_showroom`. -/
def rembgShowroomColor (showroom_type : String) : String :=
  (List.lookup showroom_type rembg_showroom_backgrounds).getD "#2d3748"

/-- The arguments `virtual_showroom` forwards to `remove_background`:
`background_type="solid"` with the resolved color. -/
def rembgVirtualShowroomCall (showroom_type : String) : String × String :=
  ("solid", rembgShowroomColor showroom_type)

/-! ## Enhancement pipeline (`enhance_image` in
`app/services/rembg_service.py`) -/

/-- The PIL photometric primitives the pipeline calls, abstracted: the
repository only invokes `ImageEnhance.Color/Contrast/Sharpness/Brightness`
and `ImageFilter.GaussianBlur` with a numeric factor. -/
structure EnhanceOps (Img : Type) where
  color : ℚ → Img → Img
  contrast : ℚ → Img → Img
  gaussianBlur : ℚ → Img → Img
  sharpness : ℚ → Img → Img
  brightness : ℚ → Img → Img

/-- Python `options.get(key, default)` over the option dictionary. -/
def optGet (options : List (String × Bool)) (key : String) (dflt : Bool) : Bool :=
  (List.lookup key options).getD dflt

/-- `RembgService.enhance_image`'s adjustment chain: color ×1.15 (default
on), contrast ×1.1 (default on), GaussianBlur radius 0.5 (default off),
sharpness ×1.2 (default on), then the unconditional brightness ×1.05. -/
def enhance_image {Img : Type} (E : EnhanceOps Img)
    (options : List (String × Bool)) (image : Img) : Img :=
  let i1 := if optGet options "auto_color" true then E.color (23/20) image else image
  let i2 := if optGet options "contrast" true then E.contrast (11/10) i1 else i1
  let i3 := if optGet options "denoise" false then E.gaussianBlur (1/2) i2 else i2
  let i4 := if optGet options "sharpen" true then E.sharpness (6/5) i3 else i3
  E.brightness (21/20) i4

/-- One named step of the spec's description of the pipeline. -/
inductive EnhanceStep where
  | colorStep (f : ℚ)
  | contrastStep (f : ℚ)
  | blurStep (r : ℚ)
  | sharpenStep (f : ℚ)
  | brightnessStep (f : ℚ)
deriving DecidableEq, Repr

/-- Interpret one step through the abstract primitives. -/
def applyStep {Img : Type} (E : EnhanceOps Img) : EnhanceStep → Img → Img
  | EnhanceStep.colorStep f, i => E.color f i
  | EnhanceStep.contrastStep f, i => E.contrast f i
  | EnhanceStep.blurStep r, i => E.gaussianBlur r i
  | EnhanceStep.sharpenStep f, i => E.sharpness f i
  | EnhanceStep.brightnessStep f, i => E.brightness f i

/-- Apply a step list left to right. -/
def applySteps {Img : Type} (E : EnhanceOps Img) : List EnhanceStep → Img → Img
  | [], i => i
  | s :: rest, i => applySteps E rest (applyStep E s i)

/-- The spec's description of the pipeline, for comparison with the
embedded `enhance_image`: color ×1.15 if enabled, contrast ×1.10 if
enabled, denoise blur if enabled (off by default), sharpness ×1.20 if
enabled, then an unconditional brightness ×1.05. -/
def specEnhanceSteps (options : List (String × Bool)) : List EnhanceStep :=
  (if optGet options "auto_color" true then [EnhanceStep.colorStep (23/20)] else []) ++
  (if optGet options "contrast" true then [EnhanceStep.contrastStep (11/10)] else []) ++
  (if optGet options "denoise" false then [EnhanceStep.blurStep (1/2)] else []) ++
  (if optGet options "sharpen" true then [EnhanceStep.sharpenStep (6/5)] else []) ++
  [EnhanceStep.brightnessStep (21/20)]

/-- Every toggle explicitly disabled. -/
def allTogglesOff : List (String × Bool) :=
  [("auto_color", false), ("contrast", false), ("denoise", false), ("sharpen", false)]

/-! ## Solid-background compositing -/

/-- Modelled from the spec: the per-pixel alpha blend
`out = fg*alpha + bg*(1-alpha)` that `background.paste(result_image,
mask=alpha_channel)` performs inside the imaging library (library internals
are external to this repository; the spec states the blend formula). -/
def blendPixel (fg bg alpha : ℚ) : ℚ :=
  fg * alpha + bg * (1 - alpha)

/-- A 0–255 mask value as a blend weight. -/
def maskAlpha (m : Nat) : ℚ :=
  (m : ℚ) / 255

/-- Modelled from the spec: compositing one channel of a foreground onto a
uniform solid backdrop (`Image.new` filled with the color), weighting each
pixel by the mask. -/
def compositeSolidChannel (fg : List ℚ) (bgColor : ℚ) (mask : List Nat) : List ℚ :=
  List.zipWith (fun f m => blendPixel f bgColor (maskAlpha m)) fg mask

/-! ## Mask normalization (`BiRefNetService._birefnet_remove_bg`) -/

/-- `mask.min()` of a raw model output. -/
def maskMin : List ℚ → ℚ
  | [] => 0
  | x :: xs => xs.foldl min x

/-- `mask.max()` of a raw model output. -/
def maskMax : List ℚ → ℚ
  | [] => 0
  | x :: xs => xs.foldl max x

/-- `(mask - mask.min()) / (mask.max() - mask.min())` from
`_birefnet_remove_bg`.  The float division is undefined (NaN array) when the
divisor is zero, so the stretch is modelled as a partial function that is
`none` exactly on a zero divisor. -/
def normalizeMask (mask : List ℚ) : Option (List ℚ) :=
  if maskMax mask - maskMin mask = 0 then none
  else some (mask.map fun x => (x - maskMin mask) / (maskMax mask - maskMin mask))

/-! ## Helper lemmas -/

theorem startswith_iff (sig c : List Nat) :
    startswith sig c = true ↔ c.take sig.length = sig := by
  rw [startswith, List.isPrefixOf_iff_prefix, List.prefix_iff_eq_take]
  exact eq_comm

theorem foldl_min_le (xs : List ℚ) : ∀ a : ℚ, xs.foldl min a ≤ a := by
  induction xs with
  | nil => intro a; exact le_refl a
  | cons x rest ih => intro a; exact le_trans (ih (min a x)) (min_le_left a x)

theorem foldl_min_le_mem (xs : List ℚ) : ∀ a x : ℚ, x ∈ xs → xs.foldl min a ≤ x := by
  induction xs with
  | nil => intro a x hx; cases hx
  | cons y rest ih =>
      intro a x hx
      rcases List.mem_cons.mp hx with rfl | hmem
      · exact le_trans (foldl_min_le rest (min a x)) (min_le_right a x)
      · exact ih (min a y) x hmem

theorem le_foldl_max (xs : List ℚ) : ∀ a : ℚ, a ≤ xs.foldl max a := by
  induction xs with
  | nil => intro a; exact le_refl a
  | cons x rest ih => intro a; exact le_trans (le_max_left a x) (ih (max a x))

theorem mem_le_foldl_max (xs : List ℚ) : ∀ a x : ℚ, x ∈ xs → x ≤ xs.foldl max a := by
  induction xs with
  | nil => intro a x hx; cases hx
  | cons y rest ih =>
      intro a x hx
      rcases List.mem_cons.mp hx with rfl | hmem
      · exact le_trans (le_max_right a x) (le_foldl_max rest (max a x))
      · exact ih (max a y) x hmem

theorem maskMin_le_mem (mask : List ℚ) (x : ℚ) (hx : x ∈ mask) : maskMin mask ≤ x := by
  cases mask with
  | nil => cases hx
  | cons y rest =>
      rcases List.mem_cons.mp hx with rfl | hmem
      · exact foldl_min_le rest x
      · exact foldl_min_le_mem rest y x hmem

theorem mem_le_maskMax (mask : List ℚ) (x : ℚ) (hx : x ∈ mask) : x ≤ maskMax mask := by
  cases mask with
  | nil => cases hx
  | cons y rest =>
      rcases List.mem_cons.mp hx with rfl | hmem
      · exact le_foldl_max rest x
      · exact mem_le_foldl_max rest y x hmem

theorem foldl_min_replicate (m : Nat) (c : ℚ) :
    (List.replicate m c).foldl min c = c := by
  induction m with
  | zero => rfl
  | succ k ih => simpa [List.replicate_succ, min_self] using ih

theorem foldl_max_replicate (m : Nat) (c : ℚ) :
    (List.replicate m c).foldl max c = c := by
  induction m with
  | zero => rfl
  | succ k ih => simpa [List.replicate_succ, max_self] using ih

/-! ## Claim theorems -/

/-- C3 (counterexample): a RIFF container that is not WebP — here `RIFF`
followed by a `WAVE` tag at offset 8 — is classified as a valid `webp`
image by `validate_image_content`, although it matches none of the three
signatures the claim allows (in particular it starts with `RIFF` but bytes
8–12 are not `WEBP`). -/
theorem riff_wave_accepted_as_webp :
    validate_image_content
        [0x52, 0x49, 0x46, 0x46, 0, 0, 0, 0, 0x57, 0x41, 0x56, 0x45, 0] = some "webp" ∧
      ¬ ([0x52, 0x49, 0x46, 0x46, 0, 0, 0, 0, 0x57, 0x41, 0x56, 0x45, 0].take 3 = jpegSig ∨
          [0x52, 0x49, 0x46, 0x46, 0, 0, 0, 0, 0x57, 0x41, 0x56, 0x45, 0].take 8 = pngSig ∨
          ([0x52, 0x49, 0x46, 0x46, 0, 0, 0, 0, 0x57, 0x41, 0x56, 0x45, 0].take 4 = riffSig ∧
            ([0x52, 0x49, 0x46, 0x46, 0, 0, 0, 0, 0x57, 0x41, 0x56, 0x45, 0].drop 8).take 4 =
              webpTag)) := by
  constructor
  · decide
  · decide

/-- C3 (amended): `validate_image_content` accepts a byte string iff it
begins with the JPEG signature `FF D8 FF`, the PNG signature
`89 50 4E 47 0D 0A 1A 0A`, or the four bytes `RIFF` (with no check of
bytes 8–12), or — even without a `RIFF` start — its length exceeds 12 and
bytes 8–12 equal `WEBP`. -/
theorem validate_image_content_characterization (c : List Nat) :
    (validate_image_content c).isSome ↔
      (c.take 3 = jpegSig ∨ c.take 8 = pngSig ∨ c.take 4 = riffSig ∨
        (12 < c.length ∧ (c.drop 8).take 4 = webpTag)) := by
  have hj := startswith_iff jpegSig c
  have hp := startswith_iff pngSig c
  have hr := startswith_iff riffSig c
  simp only [jpegSig, pngSig, riffSig, List.length] at hj hp hr
  unfold validate_image_content
  split_ifs with h1 h2 h3 h4 <;>
    simp_all [jpegSig, pngSig, riffSig]

/-- C2 (counterexample): a file named `photo.png` whose content carries the
JPEG signature `FF D8 FF` is accepted by the upload endpoint and stored as
`.jpg` — the declared extension disagrees with the real binary signature,
yet nothing is rejected. -/
theorem mismatched_extension_accepted :
    upload_image "photo.png".data [0xff, 0xd8, 0xff, 0x00] =
      UploadOutcome.accepted "jpg" 4 := by
  decide

/-- C2 (amended): for an uploaded file with a non-empty filename whose
declared extension is in the allow-list and whose size is within the cap,
acceptance depends only on the content matching some known magic signature:
the detected type alone determines the stored extension (`jpeg ↦ jpg`), and
the declared extension is never compared against it; the upload is rejected
only when the content matches no signature. -/
theorem upload_accepts_by_content_only (filename : List Char) (content : List Nat)
    (detected : String)
    (hname : filename ≠ [])
    (hext : filenameExtension filename ∈ allowedExtensions)
    (hsize : content.length ≤ 10 * 1024 * 1024)
    (hval : validate_image_content content = some detected) :
    upload_image filename content =
      UploadOutcome.accepted (actualExtension detected) content.length := by
  unfold upload_image
  rw [if_neg hname, if_neg (by simpa using hext), if_neg (by omega), hval]

/-- C2 (witness): the amended theorem applied to the mismatched
`photo.png` / JPEG-content pair from the spec's own scenario. -/
theorem upload_accepts_by_content_only_witness :
    upload_image "photo.png".data [0xff, 0xd8, 0xff, 0x00] =
      UploadOutcome.accepted (actualExtension "jpeg") 4 :=
  upload_accepts_by_content_only "photo.png".data [0xff, 0xd8, 0xff, 0x00] "jpeg"
    (by decide) (by decide) (by decide) (by decide)

/-- C1 (counterexample): a 2xx reply whose JSON body contains neither an
`image` nor a `url` field makes `AutoBGService.remove_background` raise
`ValueError("No image in API response")` to its caller — the `except`
clause catches only `httpx.HTTPError` — instead of degrading to the
original bytes as the claim states. -/
theorem missing_fields_response_raises :
    autobg_handle_response [0]
        (Except.ok ⟨none, none⟩) (fun _ => Except.error HttpFailure.transport) =
      Except.error "No image in API response" := rfl

/-- C1 (amended): transport failures, non-2xx statuses and failed fetches
of a returned `url` all degrade to the original downloaded bytes without
raising, and a 2xx body carrying an `image` field yields those bytes; but
the *only* raising case exists: a 2xx body with neither field propagates
`ValueError("No image in API response")` to the caller. -/
theorem autobg_soft_degradation (orig : List Nat)
    (fetch : String → Except HttpFailure (List Nat)) (e : HttpFailure)
    (post : Except HttpFailure ApiResponse) (u : String) (b : List Nat)
    (uOpt : Option String) (m : String) :
    autobg_handle_response orig (Except.error e) fetch = Except.ok orig ∧
      autobg_handle_response orig (Except.ok ⟨none, some u⟩) (fun _ => Except.error e) =
        Except.ok orig ∧
      autobg_handle_response orig (Except.ok ⟨some b, uOpt⟩) fetch = Except.ok b ∧
      (autobg_handle_response orig post fetch = Except.error m ↔
        (m = "No image in API response" ∧ post = Except.ok ⟨none, none⟩)) := by
  refine ⟨rfl, rfl, rfl, ?_⟩
  match post with
  | Except.error e' => simp [autobg_handle_response, autobg_try_block]
  | Except.ok ⟨some b', uOpt'⟩ => simp [autobg_handle_response, autobg_try_block]
  | Except.ok ⟨none, none⟩ =>
      simp [autobg_handle_response, autobg_try_block, eq_comm]
  | Except.ok ⟨none, some u'⟩ =>
      cases h : fetch u' <;>
        simp [autobg_handle_response, autobg_try_block, h]

/-- C4: the batch runner attempts every image: the result list has exactly
one entry per input URL in input order, an exception on one image is
recorded as a `failed` entry carrying the message while every non-failing
entry is `completed` with its processed URL, and the overall batch status
is unconditionally `"completed"`. -/
theorem batch_process_isolates_failures
    (runOp : String → String → Except String String)
    (job_id user_id : String) (image_urls operations : List String) :
    (batch_process runOp job_id image_urls operations user_id).status = "completed" ∧
      (batch_process runOp job_id image_urls operations user_id).job_id = job_id ∧
      (batch_process runOp job_id image_urls operations user_id).results.length =
        image_urls.length ∧
      (∀ i : Nat,
        (batch_process runOp job_id image_urls operations user_id).results.get? i =
          (image_urls.get? i).map (process_one runOp operations)) ∧
      (∀ url : String,
        (∃ p, run_operations runOp url operations none = Except.ok p ∧
          process_one runOp operations url = ⟨url, "completed", p, none⟩) ∨
        (∃ msg, run_operations runOp url operations none = Except.error msg ∧
          process_one runOp operations url = ⟨url, "failed", none, some msg⟩)) := by
  refine ⟨rfl, rfl, ?_, ?_, ?_⟩
  · show (batch_loop runOp operations image_urls).length = image_urls.length
    induction image_urls with
    | nil => rfl
    | cons url rest ih => simpa [batch_loop] using ih
  · intro i
    show (batch_loop runOp operations image_urls).get? i =
      (image_urls.get? i).map (process_one runOp operations)
    induction image_urls generalizing i with
    | nil => simp [batch_loop]
    | cons url rest ih =>
        cases i with
        | zero => simp [batch_loop]
        | succ j => simpa [batch_loop] using ih j
  · intro url
    unfold process_one
    cases h : run_operations runOp url operations none with
    | ok p => exact Or.inl ⟨p, rfl, rfl⟩
    | error msg => exact Or.inr ⟨msg, rfl, rfl⟩

/-- C5: the per-image operation loop consults the operation oracle only at
the original image URL — if two oracles agree on the original URL they
produce identical results for the whole operation list — so no operation
ever receives the output of a preceding operation as its input. -/
theorem batch_operations_use_original_url
    (f g : String → String → Except String String) (url : String)
    (operations : List String) (acc : Option String)
    (h : ∀ op, f op url = g op url) :
    run_operations f url operations acc = run_operations g url operations acc := by
  induction operations generalizing acc with
  | nil => rfl
  | cons op rest ih =>
      unfold run_operations
      split_ifs with hop
      · rw [h op]
        cases g op url with
        | ok processed => exact ih (some processed)
        | error e => rfl
      · exact ih acc

/-- Oracle that succeeds everywhere with the URL tagged `-done`. -/
def opOracleA : String → String → Except String String :=
  fun _ u => Except.ok (u ++ "-done")

/-- Oracle that matches `opOracleA` at `"car.jpg"` only and fails
elsewhere. -/
def opOracleB : String → String → Except String String :=
  fun op u => if u = "car.jpg" then Except.ok (u ++ "-done") else Except.error op

/-- C5 (witness): the two concrete oracles agree at `"car.jpg"`, so the
operation loop over `["enhance", "showroom"]` cannot tell them apart. -/
theorem batch_operations_use_original_url_witness :
    run_operations opOracleA "car.jpg" ["enhance", "showroom"] none =
      run_operations opOracleB "car.jpg" ["enhance", "showroom"] none :=
  batch_operations_use_original_url opOracleA opOracleB "car.jpg"
    ["enhance", "showroom"] none (fun op => by simp [opOracleA, opOracleB])

/-- C6 (counterexample): the rembg service saves solid-background output as
JPEG at quality 90, not at the fixed quality 92 the claim states. -/
theorem rembg_saves_jpeg_quality_90 :
    (rembgEncodeOutput "solid" (some "#112233") none).quality = some 90 ∧
      some (90 : Nat) ≠ some 92 := by
  exact ⟨rfl, by decide⟩

/-- C6 (amended): `transparent` output is encoded as PNG retaining the RGBA
alpha channel and stored as `.png`; every other background type is
flattened to RGB and stored as `.jpg`, encoded as JPEG at quality 92 in the
BiRefNet service but at quality 90 in the rembg service. -/
theorem encode_output_formats (bt : String) (bc bu : Option String) :
    rembgEncodeOutput bt bc bu =
      (if bt = "transparent" then ⟨"PNG", none, Mode.RGBA, "png"⟩
        else ⟨"JPEG", some 90, Mode.RGB, "jpg"⟩) ∧
      birefnetEncodeOutput bt bc bu =
        (if bt = "transparent" then ⟨"PNG", none, Mode.RGBA, "png"⟩
          else ⟨"JPEG", some 92, Mode.RGB, "jpg"⟩) := by
  by_cases h : bt = "transparent"
  · subst h
    have hr : List.lookup "transparent" rembg_backgrounds = none := by decide
    have hb : List.lookup "transparent" birefnet_backgrounds = none := by decide
    constructor
    · simp [rembgEncodeOutput, rembgSelectBackground, pyTruthy, hr]
    · simp [birefnetEncodeOutput, birefnetSelectBackground, pyTruthy, hb]
  · exact ⟨by simp [rembgEncodeOutput, h], by simp [birefnetEncodeOutput, h]⟩

/-- C9 (counterexample): in `remove_background`, an unrecognized background
name composites nothing at all — it does not resolve to the default color
`#2d3748` the claim asserts for every operation accepting a preset name. -/
theorem unknown_background_type_skips_compositing :
    rembgSelectBackground "galaxy" none none = AppliedBackground.noComposite ∧
      AppliedBackground.noComposite ≠ AppliedBackground.solidColor "#2d3748" := by
  exact ⟨by decide, by decide⟩

/-- C9 (amended): a known preset name resolves to its fixed table entry in
both `remove_background` and `virtual_showroom`; an unrecognized name never
raises, but only `virtual_showroom` substitutes the default `#2d3748`
(forwarding `("solid", color)` to `remove_background`), while
`remove_background` skips compositing entirely. -/
theorem preset_resolution (t : String) :
    rembgSelectBackground t none none =
      (match List.lookup t rembg_backgrounds with
        | some hex => AppliedBackground.solidColor hex
        | none => AppliedBackground.noComposite) ∧
      rembgShowroomColor t = (List.lookup t rembg_showroom_backgrounds).getD "#2d3748" ∧
      rembgSelectBackground "showroom" none none = AppliedBackground.solidColor "#2d3748" ∧
      rembgShowroomColor "galaxy" = "#2d3748" ∧
      rembgVirtualShowroomCall "galaxy" = ("solid", "#2d3748") := by
  refine ⟨?_, rfl, by decide, by decide, by decide⟩
  simp [rembgSelectBackground, pyTruthy]

/-- C7: the enabled enhancement steps run in the fixed order color ×1.15,
contrast ×1.10, denoise blur (off by default), sharpness ×1.20, then the
unconditional brightness ×1.05; with every toggle disabled the output is
exactly the brightness ×1.05 adjustment of the input. -/
theorem enhance_pipeline_order (Img : Type) (E : EnhanceOps Img)
    (options : List (String × Bool)) (image : Img) :
    enhance_image E options image = applySteps E (specEnhanceSteps options) image ∧
      enhance_image E allTogglesOff image = E.brightness (21/20) image := by
  constructor
  · cases h1 : optGet options "auto_color" true <;>
      cases h2 : optGet options "contrast" true <;>
        cases h3 : optGet options "denoise" false <;>
          cases h4 : optGet options "sharpen" true <;>
            simp [enhance_image, specEnhanceSteps, applySteps, applyStep, h1, h2, h3, h4]
  · rfl

/-- C8: compositing any foreground channel onto any solid backdrop with a
mask that is 255 at every pixel reproduces the foreground exactly — the
blend `out = fg*alpha + bg*(1-alpha)` is the identity at alpha = 1,
independent of the backdrop color. -/
theorem full_mask_composite_identity (fg : List ℚ) (bgColor : ℚ) :
    compositeSolidChannel fg bgColor (List.replicate fg.length 255) = fg := by
  induction fg with
  | nil => rfl
  | cons a rest ih =>
      show blendPixel a bgColor (maskAlpha 255) ::
          compositeSolidChannel rest bgColor (List.replicate rest.length 255) = a :: rest
      rw [ih]
      congr 1
      norm_num [blendPixel, maskAlpha]

/-- C10: the min-max stretch of `_birefnet_remove_bg` is defined exactly
when the raw mask is non-constant (`min < max`); a constant raw mask makes
the divisor `max - min` zero; and under the precondition every normalized
value lies in `[0, 1]` (so ×255 lands in the 0–255 range). -/
theorem mask_normalization_requires_nonconstant (mask : List ℚ) (c : ℚ) (n : Nat) :
    ((normalizeMask mask).isSome ↔ maskMin mask < maskMax mask) ∧
      maskMax (List.replicate n c) - maskMin (List.replicate n c) = 0 ∧
      (∀ y ∈ (normalizeMask mask).getD [], 0 ≤ y ∧ y ≤ 1) := by
  refine ⟨?_, ?_, ?_⟩
  · unfold normalizeMask
    split_ifs with h
    · simp only [Option.isSome_none, Bool.false_eq_true, false_iff, not_lt]
      exact le_of_sub_nonpos (le_of_eq h)
    · simp only [Option.isSome_some, true_iff]
      cases mask with
      | nil => exact absurd (sub_self (0 : ℚ)) h
      | cons y rest =>
          have hle : maskMin (y :: rest) ≤ maskMax (y :: rest) :=
            le_trans (maskMin_le_mem _ y (List.mem_cons_self y rest))
              (mem_le_maskMax _ y (List.mem_cons_self y rest))
          exact lt_of_le_of_ne hle (fun heq => h (by rw [heq, sub_self]))
  · cases n with
    | zero => norm_num [maskMin, maskMax]
    | succ m =>
        simp only [List.replicate_succ, maskMin, maskMax,
          foldl_min_replicate, foldl_max_replicate, sub_self]
  · intro y hy
    unfold normalizeMask at hy
    split_ifs at hy with h
    · simp at hy
    · simp only [Option.getD_some, List.mem_map] at hy
      obtain ⟨x, hx, rfl⟩ := hy
      have hmn : maskMin mask ≤ x := maskMin_le_mem mask x hx
      have hmx : x ≤ maskMax mask := mem_le_maskMax mask x hx
      have hpos : 0 < maskMax mask - maskMin mask := by
        rcases lt_or_eq_of_le (sub_nonneg.mpr (le_trans hmn hmx)) with hlt | heq
        · exact hlt
        · exact absurd heq.symm h
      constructor
      · exact div_nonneg (by linarith) (le_of_lt hpos)
      · rw [div_le_one hpos]
        linarith

/-- C10 (witness): the strictly increasing mask `[0, 2]` satisfies the
precondition and normalizes, while the constant mask `5, 5, 5` has a zero
divisor. -/
theorem mask_normalization_requires_nonconstant_witness :
    (normalizeMask [(0 : ℚ), 2]).isSome ∧
      maskMax (List.replicate 3 (5 : ℚ)) - maskMin (List.replicate 3 (5 : ℚ)) = 0 := by
  constructor
  · exact (mask_normalization_requires_nonconstant [(0 : ℚ), 2] 5 3).1.mpr
      (by norm_num [maskMin, maskMax, List.foldl, min_def, max_def])
  · exact (mask_normalization_requires_nonconstant [(0 : ℚ), 2] 5 3).2.1

end KeroxioImage
